import Mathlib

/-!
# Verification of the assisted-migration-agent runtime core

This file gives a shallow embedding, in Lean 4, of the runtime core of the
assisted-migration-agent repository and proves properties of it:

* the SHA-256 / base64 / JSON-marshal pipeline used by the console dispatcher
  for inventory deduplication (`internal/services/collector.go`,
  `getInventoryIfChanged`),
* the dispatcher work unit and run loop (`(*Console).dispatch`, `(*Console).run`),
* the mode controller (`(*Console).SetMode`, `NewConsoleService`),
* the console client's HTTP-status-to-error mapping (`pkg/console/client.go`),
* the scheduler's worker panic guard and event loop (`pkg/scheduler/scheduler.go`),
* the configuration store round trip (`internal/store/configuration.go`).

Machine integers are modelled as `Nat` with explicit reduction `% 2^32` where
the Go code relies on 32-bit wraparound (the SHA-256 compression function).
Bytes are `List Nat` (each entry < 256). I/O outcomes (HTTP responses, store
reads) are inputs of the model functions, so that code paths are functions of
an explicit environment.
-/

namespace AgentCore

/-! ## Bytes and 32-bit arithmetic -/

/-- Reduce to a 32-bit word, i.e. `x mod 2^32`. -/
def w32 (x : Nat) : Nat := x % 4294967296

/-- 32-bit right rotation by `n` (as in Go's `bits.RotateLeft32` usage inside
`crypto/sha256`). -/
def rotr32 (n x : Nat) : Nat := w32 ((x >>> n) ||| (x <<< (32 - n)))

/-- UTF-8/ASCII bytes of a string (all strings appearing in the model are
ASCII, so a character is one byte). -/
def strBytes (s : String) : List Nat := s.data.map Char.toNat

/-! ## SHA-256 (`crypto/sha256`, used by `getInventoryIfChanged`) -/

/-- The 64 SHA-256 round constants. -/
def sha256K : List Nat :=
  [1116352408, 1899447441, 3049323471, 3921009573, 961987163, 1508970993,
   2453635748, 2870763221, 3624381080, 310598401, 607225278, 1426881987,
   1925078388, 2162078206, 2614888103, 3248222580, 3835390401, 4022224774,
   264347078, 604807628, 770255983, 1249150122, 1555081692, 1996064986,
   2554220882, 2821834349, 2952996808, 3210313671, 3336571891, 3584528711,
   113926993, 338241895, 666307205, 773529912, 1294757372, 1396182291,
   1695183700, 1986661051, 2177026350, 2456956037, 2730485921, 2820302411,
   3259730800, 3345764771, 3516065817, 3600352804, 4094571909, 275423344,
   430227734, 506948616, 659060556, 883997877, 958139571, 1322822218,
   1537002063, 1747873779, 1955562222, 2024104815, 2227730452, 2361852424,
   2428436474, 2756734187, 3204031479, 3329325298]

/-- The initial SHA-256 hash value. -/
def sha256H0 : List Nat :=
  [1779033703, 3144134277, 1013904242, 2773480762,
   1359893119, 2600822924, 528734635, 1541459225]

/-- Big-endian 8-byte encoding of the bit length appended by SHA-256 padding. -/
def be64 (n : Nat) : List Nat :=
  [(n >>> 56) % 256, (n >>> 48) % 256, (n >>> 40) % 256, (n >>> 32) % 256,
   (n >>> 24) % 256, (n >>> 16) % 256, (n >>> 8) % 256, n % 256]

/-- Big-endian 4-byte encoding of a 32-bit word. -/
def be32 (n : Nat) : List Nat :=
  [(n >>> 24) % 256, (n >>> 16) % 256, (n >>> 8) % 256, n % 256]

/-- SHA-256 padding: append `0x80`, zero bytes up to 56 mod 64, then the
64-bit big-endian bit length. -/
def sha256Pad (msg : List Nat) : List Nat :=
  let L := msg.length
  let k := (119 - (L % 64)) % 64
  msg ++ [0x80] ++ List.replicate k 0 ++ be64 (8 * L)

/-- Split a byte list into 64-byte blocks (fuel-based so that the kernel can
evaluate it; the fuel `n` is always at least the list length at call sites). -/
def chunk64 : Nat → List Nat → List (List Nat)
  | 0, _ => []
  | _, [] => []
  | Nat.succ n, xs => xs.take 64 :: chunk64 n (xs.drop 64)

/-- Combine 4 bytes (big-endian) into one 32-bit word, list-wise. The sum of
the disjoint shifted byte ranges equals the bitwise-or assembly of the source
whenever the entries are bytes (< 256), which padding guarantees. -/
def toWords : List Nat → List Nat
  | b0 :: b1 :: b2 :: b3 :: rest =>
      (b3 + (b2 <<< 8) + (b1 <<< 16) + (b0 <<< 24)) :: toWords rest
  | _ => []

/-- Message-schedule extension: extend 16 words to 64 words. -/
def sha256Extend (w0 : List Nat) : List Nat :=
  (List.range 48).foldl
    (fun w _ =>
      let i := w.length
      let x15 := w.getD (i - 15) 0
      let x2 := w.getD (i - 2) 0
      let s0 := (rotr32 7 x15) ^^^ (rotr32 18 x15) ^^^ (x15 >>> 3)
      let s1 := (rotr32 17 x2) ^^^ (rotr32 19 x2) ^^^ (x2 >>> 10)
      w ++ [w32 (s1 + w.getD (i - 7) 0 + s0 + w.getD (i - 16) 0)])
    w0

/-- Working variables of the SHA-256 compression function. -/
structure SHAState where
  a : Nat
  b : Nat
  c : Nat
  d : Nat
  e : Nat
  f : Nat
  g : Nat
  h : Nat
  deriving Repr, DecidableEq

/-- One round of the SHA-256 compression function on (round constant, word). -/
def compressRound (st : SHAState) (kw : Nat × Nat) : SHAState :=
  let S1 := (rotr32 6 st.e) ^^^ (rotr32 11 st.e) ^^^ (rotr32 25 st.e)
  let ch := (st.e &&& st.f) ^^^ ((st.e ^^^ 4294967295) &&& st.g)
  let temp1 := w32 (st.h + S1 + ch + kw.1 + kw.2)
  let S0 := (rotr32 2 st.a) ^^^ (rotr32 13 st.a) ^^^ (rotr32 22 st.a)
  let maj := (st.a &&& st.b) ^^^ (st.a &&& st.c) ^^^ (st.b &&& st.c)
  let temp2 := w32 (S0 + maj)
  { a := w32 (temp1 + temp2), b := st.a, c := st.b, d := st.c,
    e := w32 (st.d + temp1), f := st.e, g := st.f, h := st.g }

/-- Process one 64-byte block, updating the 8-word hash state. -/
def sha256Block (hs : List Nat) (block : List Nat) : List Nat :=
  let w := sha256Extend (toWords block)
  let init : SHAState :=
    { a := hs.getD 0 0, b := hs.getD 1 0, c := hs.getD 2 0, d := hs.getD 3 0,
      e := hs.getD 4 0, f := hs.getD 5 0, g := hs.getD 6 0, h := hs.getD 7 0 }
  let st := (List.zip sha256K w).foldl compressRound init
  [w32 (hs.getD 0 0 + st.a), w32 (hs.getD 1 0 + st.b),
   w32 (hs.getD 2 0 + st.c), w32 (hs.getD 3 0 + st.d),
   w32 (hs.getD 4 0 + st.e), w32 (hs.getD 5 0 + st.f),
   w32 (hs.getD 6 0 + st.g), w32 (hs.getD 7 0 + st.h)]

/-- SHA-256 digest (32 bytes) of a byte list. -/
def sha256 (msg : List Nat) : List Nat :=
  let padded := sha256Pad msg
  let blocks := chunk64 padded.length padded
  let hs := blocks.foldl sha256Block sha256H0
  hs.foldr (fun h acc => be32 h ++ acc) []

/-- Lower-case hex digit. -/
def hexDigit (n : Nat) : Char :=
  if n < 10 then Char.ofNat (48 + n) else Char.ofNat (87 + n)

/-- Lower-case hex string of a byte list (Go's `fmt.Sprintf("%x", …)`). -/
def bytesToHex (bs : List Nat) : String :=
  String.mk (bs.foldr (fun b acc => hexDigit (b / 16) :: hexDigit (b % 16) :: acc) [])

/-- `fmt.Sprintf("%x", sha256.Sum256 msg)`: the dedup hash representation used
by `getInventoryIfChanged`. -/
def hexSha256 (msg : List Nat) : String := bytesToHex (sha256 msg)

/-! ## Base64 (`encoding/json` marshals `[]byte` as std base64) -/

/-- Character of the standard base64 alphabet. -/
def b64Char (n : Nat) : Char :=
  if n < 26 then Char.ofNat (65 + n)
  else if n < 52 then Char.ofNat (97 + (n - 26))
  else if n < 62 then Char.ofNat (48 + (n - 52))
  else if n = 62 then Char.ofNat 43
  else Char.ofNat 47

/-- Standard base64 encoding with `=` padding. -/
def base64Encode : List Nat → List Char
  | [] => []
  | [b0] =>
      [b64Char (b0 >>> 2), b64Char ((b0 % 4) <<< 4), Char.ofNat 61, Char.ofNat 61]
  | [b0, b1] =>
      [b64Char (b0 >>> 2), b64Char (((b0 % 4) <<< 4) ||| (b1 >>> 4)),
       b64Char ((b1 % 16) <<< 2), Char.ofNat 61]
  | b0 :: b1 :: b2 :: rest =>
      b64Char (b0 >>> 2) :: b64Char (((b0 % 4) <<< 4) ||| (b1 >>> 4)) ::
      b64Char (((b1 % 16) <<< 2) ||| (b2 >>> 6)) :: b64Char (b2 % 64) ::
      base64Encode rest

/-! ## Error taxonomy (`pkg/errors`, as used by `collector.go` / `client.go`)

The dispatcher routes on the dynamic type of the returned error:
`*errors.SourceGoneError` and `*errors.AgentUnauthorizedError` are fatal,
`errInventoryNotChanged` is the sentinel, everything else is transient. -/

/-- Typed errors flowing through the dispatcher work unit. -/
inductive CErr where
  /-- `errors.NewSourceGoneError` (HTTP 410 on the agent-status PUT). -/
  | sourceGone
  /-- `errors.NewAgentUnauthorized` (HTTP 401). -/
  | agentUnauthorized
  /-- `fmt.Errorf("failed to update agent status: %s", resp.Status)` /
  `fmt.Errorf("failed to update source inventory: %s", resp.Status)`. -/
  | transientHttp (status : Nat)
  /-- Transport-level error returned by the HTTP round trip itself. -/
  | transport (msg : String)
  /-- Error returned by `store.Inventory().Get`. -/
  | storeErr (msg : String)
  /-- `fmt.Errorf("failed to unmarshal inventory: %w", err)` inside
  `(*Client).UpdateSourceStatus`, before the HTTP request is issued. -/
  | unmarshalErr
  deriving Repr, DecidableEq

/-- Fatal errors per the `switch result.Err.(type)` in `(*Console).run`. -/
def CErr.isFatal : CErr → Bool
  | .sourceGone => true
  | .agentUnauthorized => true
  | _ => false

/-- Outcome of one HTTP round trip, supplied by the environment. -/
inductive HttpOutcome where
  /-- The request failed before a status code was received. -/
  | transport (msg : String)
  /-- The console answered with this status code. -/
  | code (n : Nat)
  deriving Repr, DecidableEq

/-! ## Console client (`pkg/console/client.go`) -/

/-- `(*Client).UpdateAgentStatus` response mapping: 200/201 → ok,
410 → SourceGone, 401 → AgentUnauthorized, other → generic error. -/
def updateAgentStatus : HttpOutcome → Option CErr
  | .transport m => some (.transport m)
  | .code 200 => none
  | .code 201 => none
  | .code 410 => some .sourceGone
  | .code 401 => some .agentUnauthorized
  | .code n => some (.transientHttp n)

/-- `(*Client).UpdateSourceStatus`: first `json.Unmarshal(inventory.Data, &inv)`
into the external inventory DTO — on failure the method returns an error
*before issuing the HTTP request*; then 200/201/204 → ok,
401 → AgentUnauthorized, other → generic error.

`decodeOk` stands for "the blob unmarshals into the external
`v1alpha1.Inventory` DTO"; the DTO lives outside this repository, so decode
success is a parameter. The returned `Bool` records whether the HTTP request
was actually issued. -/
def updateSourceStatus (decodeOk : List Nat → Bool) (data : List Nat)
    (resp : HttpOutcome) : Bool × Option CErr :=
  if decodeOk data then
    match resp with
    | .transport m => (true, some (.transport m))
    | .code 200 => (true, none)
    | .code 201 => (true, none)
    | .code 204 => (true, none)
    | .code 401 => (true, some .agentUnauthorized)
    | .code n => (true, some (.transientHttp n))
  else
    (false, some .unmarshalErr)

/-! ## Inventory record and its JSON marshalling

`store.Inventory().Get` returns a `*models.Inventory`
(`{Data []byte; CreatedAt, UpdatedAt time.Time}`, `internal/models`, the
Inventory doc). `getInventoryIfChanged` then computes
`sha256.Sum256(json.Marshal(inventory))`: the hash input is the JSON object
with the base64-encoded blob *and both timestamps*, not the raw blob.
Timestamps are modelled by their rendered JSON string (RFC 3339), which is
all the marshaller uses them for. -/

/-- `models.Inventory`: the single inventory row. -/
structure InvRecord where
  data : List Nat
  createdAt : String
  updatedAt : String
  deriving Repr, DecidableEq

/-- `json.Marshal` of a `models.Inventory` value:
`\x7b"Data":"<base64>","CreatedAt":"<ts>","UpdatedAt":"<ts>"\x7d`. -/
def jsonMarshalInventory (inv : InvRecord) : List Nat :=
  strBytes "\x7b\"Data\":\"" ++ (base64Encode inv.data).map Char.toNat ++
  strBytes "\",\"CreatedAt\":\"" ++ strBytes inv.createdAt ++
  strBytes "\",\"UpdatedAt\":\"" ++ strBytes inv.updatedAt ++ strBytes "\"\x7d"

/-- The dedup hash computed by `getInventoryIfChanged`:
`fmt.Sprintf("%x", sha256.Sum256(data))` where `data = json.Marshal(inventory)`. -/
def invHash (rec : InvRecord) : String := hexSha256 (jsonMarshalInventory rec)

/-! ## Collector states and the legacy status vocabulary -/

/-- Collector engine states (`models.CollectorState*`). -/
inductive CollectorState where
  | ready | connecting | collecting | collected | error
  deriving Repr, DecidableEq

/-- Wire value of a collector state (`models.CollectorStatusType(state)`). -/
def collectorStateWire : CollectorState → String
  | .ready => "ready"
  | .connecting => "connecting"
  | .collecting => "collecting"
  | .collected => "collected"
  | .error => "error"

/-- The status string sent on the agent-status PUT: when `legacyStatusEnabled`
the `switch` in `(*Console).dispatch` maps Ready/Connecting/Collecting/Collected
to the legacy vocabulary (Error has no case and keeps its wire value). -/
def agentStatusValue (legacy : Bool) (st : CollectorState) : String :=
  if legacy then
    match st with
    | .ready => "waiting-for-credentials"
    | .connecting => "gathering-initial-inventory"
    | .collecting => "gathering-initial-inventory"
    | .collected => "up-to-date"
    | .error => collectorStateWire .error
  else collectorStateWire st

/-! ## The dispatcher work unit (`(*Console).dispatch`) -/

/-- Outbound client calls made by one work unit, in order. -/
inductive Call where
  /-- `client.UpdateAgentStatus` invocation with the status string sent and
  the outcome observed. The HTTP request is always issued by this method. -/
  | agent (status : String) (outcome : Option CErr)
  /-- `client.UpdateSourceStatus` invocation; `httpIssued` is false when the
  method failed at the DTO unmarshal before sending the request. -/
  | source (httpIssued : Bool) (outcome : Option CErr)
  deriving Repr, DecidableEq

/-- Result of the work unit, as observed through the future. -/
inductive TickResult where
  /-- `struct\x7b\x7d, nil`. -/
  | ok
  /-- The sentinel `errInventoryNotChanged`. -/
  | sentinel
  /-- Any other error. -/
  | err (e : CErr)
  deriving Repr, DecidableEq

/-- Environment of one tick: what the collaborators would answer. -/
structure TickEnv where
  /-- `c.collector.GetStatus().State`. -/
  collectorState : CollectorState
  /-- Console response to the agent-status PUT. -/
  agentResp : HttpOutcome
  /-- `c.store.Inventory().Get` outcome. -/
  invGet : Except String InvRecord
  /-- Console response to the source-status PUT (if one is issued). -/
  sourceResp : HttpOutcome
  deriving Repr

/-- The body of the work unit submitted by `(*Console).dispatch`, returning
(result, new `inventoryLastHash`, calls made).

Mirrors the source order: (1) compute the status value, (2)
`UpdateAgentStatus` — on error return it; (3) `getInventoryIfChanged`:
store read, marshal, hash; if the hash equals `inventoryLastHash` return the
sentinel, otherwise *assign `c.inventoryLastHash = hash` immediately*; (4)
`json.Unmarshal(data, &inventory)` — a round trip of step (3)'s marshal, which
always succeeds and restores the record, so it is elided here; (5)
`UpdateSourceStatus` with the record's blob. -/
def runWorkUnit (decodeOk : List Nat → Bool) (legacy : Bool) (env : TickEnv)
    (lastHash : String) : TickResult × String × List Call :=
  let status := agentStatusValue legacy env.collectorState
  match updateAgentStatus env.agentResp with
  | some e => (.err e, lastHash, [.agent status (some e)])
  | none =>
    match env.invGet with
    | .error m => (.err (.storeErr m), lastHash, [.agent status none])
    | .ok rec =>
      let h := invHash rec
      if h = lastHash then
        (.sentinel, lastHash, [.agent status none])
      else
        match updateSourceStatus decodeOk rec.data env.sourceResp with
        | (issued, some e) => (.err e, h, [.agent status none, .source issued (some e)])
        | (issued, none) => (.ok, h, [.agent status none, .source issued none])

/-! ## The dispatcher run loop (`(*Console).run`)

The loop is driven by a `select` on the ticker and the close channel; we model
the sequence of events it observes as a list. Backoff intervals produced by
`backoff.ExponentialBackOff.NextBackOff` are randomized, so they are supplied
as a stream `backoffs : Nat → Nat` indexed by the number of `NextBackOff`
calls since the last `Reset`. -/

/-- Mutable state carried across loop iterations: `c.inventoryLastHash`,
`c.state.Error`, `nextAllowedTime` and the backoff position. -/
structure RunState where
  lastHash : String
  errField : Option CErr
  nextAllowed : Nat
  bCount : Nat
  deriving Repr, DecidableEq

/-- How the loop ended. -/
inductive ExitKind where
  /-- `return` from the fatal-error cases of the type switch. -/
  | fatal
  /-- `return` after receiving on `c.close`. -/
  | closed
  /-- The supplied event list ran out (the loop would keep waiting). -/
  | eventsExhausted
  deriving Repr, DecidableEq

/-- One event observed by the loop's `select`s. -/
inductive LoopEvent where
  /-- The ticker fired at time `now` and the collaborators would behave as
  `env` if a work unit runs. -/
  | tick (now : Nat) (env : TickEnv)
  /-- The close channel fired. -/
  | closeSignal

/-- The `backoff:` label of `(*Console).run`: if `c.Status().Error` is set,
`nextAllowedTime = now + b.NextBackOff()`; otherwise `b.Reset()` and
`nextAllowedTime = time.Time\x7b\x7d`. -/
def backoffStep (backoffs : Nat → Nat) (now : Nat) (st : RunState) : RunState :=
  match st.errField with
  | some _ => { st with nextAllowed := now + backoffs st.bCount, bCount := st.bCount + 1 }
  | none => { st with nextAllowed := 0, bCount := 0 }

/-- The loop body of `(*Console).run` over a list of events, returning the
concatenated outbound calls, how the loop ended, and the final state.

Per tick: skip unless `now.After(nextAllowedTime)`; run the work unit and
block on its future; the sentinel jumps to `backoff:` leaving the error field
untouched; other errors are stored with `setError`, and SourceGone /
AgentUnauthorized additionally `return`; success runs `clearError`. -/
def runLoop (decodeOk : List Nat → Bool) (legacy : Bool) (backoffs : Nat → Nat) :
    RunState → List LoopEvent → List Call × ExitKind × RunState
  | st, [] => ([], .eventsExhausted, st)
  | st, .closeSignal :: _ => ([], .closed, st)
  | st, .tick now env :: rest =>
    if now ≤ st.nextAllowed then
      runLoop decodeOk legacy backoffs st rest
    else
      match runWorkUnit decodeOk legacy env st.lastHash with
      | (.sentinel, h, calls) =>
        let r := runLoop decodeOk legacy backoffs
          (backoffStep backoffs now { st with lastHash := h }) rest
        (calls ++ r.1, r.2)
      | (.err e, h, calls) =>
        if e.isFatal then
          (calls, .fatal, { st with lastHash := h, errField := some e })
        else
          let r := runLoop decodeOk legacy backoffs
            (backoffStep backoffs now { st with lastHash := h, errField := some e }) rest
          (calls ++ r.1, r.2)
      | (.ok, h, calls) =>
        let r := runLoop decodeOk legacy backoffs
          (backoffStep backoffs now { st with lastHash := h, errField := none }) rest
        (calls ++ r.1, r.2)

/-! ## Configuration store (`internal/store/configuration.go`)

`Save` executes `queryUpsertConfiguration`; `Get` executes
`queryGetConfiguration` and maps `sql.ErrNoRows` to
`ConfigurationNotFoundError`. -/

/-- Modelled from the spec: the SQL constants `queryGetConfiguration` /
`queryUpsertConfiguration` and the DuckDB engine are not part of the source
tree; per §4.2 the table is a single row keyed on the constant 1 with
`INSERT … ON CONFLICT(id=1) DO UPDATE` upsert semantics, so the table state is
the optional current `agent_mode` value. -/
def configSave (_row : Option String) (mode : String) : Option String := some mode

/-- `(*ConfigurationStore).Get`: `ConfigurationNotFoundError` when no row
exists, otherwise the stored mode. -/
def configGet (row : Option String) : Except String String :=
  match row with
  | none => .error "configuration not found"
  | some m => .ok m

/-! ## Mode controller (`NewConsoleService`, `(*Console).GetMode`,
`(*Console).SetMode`)

The controller state is the persisted configuration row, the number of live
run-loop goroutines, and `c.state.Target`. `go c.run()` increments the loop
count; a loop returning (fatal error or close signal) decrements it. -/

/-- Controller-level state. -/
structure CtlState where
  row : Option String
  loops : Nat
  target : String
  deriving Repr, DecidableEq

/-- What a `SetMode` call returns (or fails to). -/
inductive SetModeOutcome where
  /-- `return nil`. -/
  | ok
  /-- The `Save` failed; its error is returned. -/
  | saveErr
  /-- `c.close <- struct\x7b\x7d\x7b\x7d` with no live run loop to receive:
  the send blocks forever and `SetMode` never returns. -/
  | blocked
  deriving Repr, DecidableEq

/-- `models.ParseConsoleStatusType`. -/
def parseConsoleStatusType (s : String) : Except String String :=
  match s with
  | "connected" => .ok "connected"
  | "disconnected" => .ok "disconnected"
  | _ => .error ("invalid console status type: " ++ s)

/-- `(*Console).GetMode` as used by `SetMode` (`prevMode, _ := c.GetMode(ctx)`):
on any `Get` error the first return value is `AgentModeDisconnected`. -/
def getModeValue (row : Option String) : String :=
  match configGet row with
  | .ok m => m
  | .error _ => "disconnected"

/-- `NewConsoleService` startup: parse `cfg.Mode` (invalid → Disconnected);
then, if a configuration row exists *and its mode is Connected*, force the
target to Connected; spawn the run loop iff the resulting target is
Connected. Note the persisted row overrides the configured default only in
the Connected case. -/
def startup (cfgMode : String) (row : Option String) : CtlState :=
  let targetStatus :=
    match parseConsoleStatusType cfgMode with
    | .ok t => t
    | .error _ => "disconnected"
  let target := if row = some "connected" then "connected" else targetStatus
  { row := row, target := target, loops := if target = "connected" then 1 else 0 }

/-- `(*Console).SetMode`: read the previous mode (errors ignored), save the
new mode (returning its error on failure), then: target Connected spawns
`go c.run()` iff the previous mode was not Connected; target Disconnected
signals the close channel iff the previous mode was Connected. -/
def setMode (st : CtlState) (mode : String) (saveOk : Bool) :
    CtlState × SetModeOutcome :=
  let prev := getModeValue st.row
  if saveOk then
    let st1 := { st with row := configSave st.row mode }
    if mode = "connected" then
      let st2 := { st1 with target := "connected" }
      if prev ≠ "connected" then ({ st2 with loops := st2.loops + 1 }, .ok)
      else (st2, .ok)
    else if mode = "disconnected" then
      let st2 := { st1 with target := "disconnected" }
      if prev = "connected" then
        if st2.loops = 0 then (st2, .blocked)
        else ({ st2 with loops := st2.loops - 1 }, .ok)
      else (st2, .ok)
    else (st1, .ok)
  else (st, .saveErr)

/-- A live run loop observes a fatal error and returns
(the `return` statements in the type switch of `(*Console).run`). -/
def fatalExit (st : CtlState) : CtlState := { st with loops := st.loops - 1 }

/-! ## Scheduler (`pkg/scheduler/scheduler.go`) -/

/-- Behaviour of a submitted work function: it either returns `(value, err)`
or panics with a value (rendered by `%v` as a string). -/
inductive WorkOutcome where
  | ret (v : Option String) (e : Option String)
  | panicked (p : String)

/-- `Result[any]` as delivered on the future's channel. -/
structure SchedResult where
  data : Option String
  err : Option String
  deriving Repr, DecidableEq

/-- `worker.Work`: run the function; the deferred guard recovers a panic and
sends `Result\x7bErr: fmt.Errorf("worker panicked: %v", rec)\x7d`, and in
every case sends the completion signal (`w.done <- struct\x7b\x7d\x7b\x7d`,
`w.wg.Done()`). Returns (result delivered, completion signalled). -/
def workerRun : WorkOutcome → SchedResult × Bool
  | .ret v e => ({ data := v, err := e }, true)
  | .panicked p => ({ data := none, err := some ("worker panicked: " ++ p) }, true)

/-- Event-loop state: available workers (interchangeable, so a count) and the
pending-work FIFO (work ids). -/
structure SchedState where
  workers : Nat
  pending : List Nat
  deriving Repr, DecidableEq

/-- The pairing loop of `(*Scheduler).dispatch`: pop work and workers while
both queues are non-empty; returns (workers left, pending left, launched). -/
def dispatchDrain : Nat → List Nat → Nat × List Nat × List Nat
  | w, [] => (w, [], [])
  | 0, ps => (0, ps, [])
  | Nat.succ w, p :: ps =>
    let (w', ps', ls) := dispatchDrain w ps
    (w', ps', p :: ls)

/-- `(*Scheduler).dispatch` on the event-loop state. -/
def schedDispatch (st : SchedState) : SchedState × List Nat :=
  let (w, ps, ls) := dispatchDrain st.workers st.pending
  ({ workers := w, pending := ps }, ls)

/-- Events observed by `(*Scheduler).run`. -/
inductive SEvent where
  /-- A new submission arrives on `s.work`. -/
  | submit (id : Nat)
  /-- A worker finished and signalled `s.done`; a fresh worker handle is
  pushed back. -/
  | workerDone
  /-- `s.close` fired; the loop waits for the group and returns. -/
  | closeSig

/-- One iteration of the `(*Scheduler).run` event loop: returns the new state,
the work launched during the dispatch pass, and whether the loop stopped. -/
def schedStep (st : SchedState) (ev : SEvent) : SchedState × List Nat × Bool :=
  match ev with
  | .submit id =>
    let (st', ls) := schedDispatch { st with pending := st.pending ++ [id] }
    (st', ls, false)
  | .workerDone =>
    let (st', ls) := schedDispatch { st with workers := st.workers + 1 }
    (st', ls, false)
  | .closeSig => (st, [], true)

/-! ## Helper predicates and lemmas -/

/-- Is this a `client.UpdateAgentStatus` invocation? -/
def Call.isAgent : Call → Bool
  | .agent _ _ => true
  | _ => false

/-- Is this a `client.UpdateSourceStatus` invocation? -/
def Call.isSource : Call → Bool
  | .source _ _ => true
  | _ => false

/-- A `client.UpdateAgentStatus` invocation that returned nil. -/
def Call.isAgentSuccess : Call → Bool
  | .agent _ none => true
  | _ => false

/-- The calls of one work unit have one of three shapes: a failed agent call,
a lone successful agent call, or a successful agent call followed by one
source call. -/
theorem runWorkUnit_shape (decodeOk : List Nat → Bool) (legacy : Bool)
    (env : TickEnv) (lastHash : String) :
    (∃ e, (runWorkUnit decodeOk legacy env lastHash).2.2
        = [.agent (agentStatusValue legacy env.collectorState) (some e)]) ∨
    ((runWorkUnit decodeOk legacy env lastHash).2.2
        = [.agent (agentStatusValue legacy env.collectorState) none]) ∨
    (∃ b o, (runWorkUnit decodeOk legacy env lastHash).2.2
        = [.agent (agentStatusValue legacy env.collectorState) none, .source b o]) := by
  unfold runWorkUnit
  cases h1 : updateAgentStatus env.agentResp with
  | some e => exact Or.inl ⟨e, rfl⟩
  | none =>
    cases h2 : env.invGet with
    | error m => exact Or.inr (Or.inl rfl)
    | ok rec =>
      by_cases h3 : invHash rec = lastHash
      · simp only [h3, if_pos rfl]
        exact Or.inr (Or.inl rfl)
      · simp only [if_neg h3]
        rcases h4 : updateSourceStatus decodeOk rec.data env.sourceResp with ⟨issued, out⟩
        cases out with
        | some e => exact Or.inr (Or.inr ⟨issued, some e, rfl⟩)
        | none => exact Or.inr (Or.inr ⟨issued, none, rfl⟩)

/-- On a tick whose record hashes to the current `inventoryLastHash` (or whose
store read / agent call fails), the hash is unchanged and no source call of
any kind is made. -/
theorem runWorkUnit_unchanged (decodeOk : List Nat → Bool) (legacy : Bool)
    (env : TickEnv) (lastHash : String)
    (hrec : ∀ rec, env.invGet = .ok rec → invHash rec = lastHash) :
    (runWorkUnit decodeOk legacy env lastHash).2.1 = lastHash ∧
    ∀ b o, Call.source b o ∉ (runWorkUnit decodeOk legacy env lastHash).2.2 := by
  unfold runWorkUnit
  cases h1 : updateAgentStatus env.agentResp with
  | some e => simp
  | none =>
    cases h2 : env.invGet with
    | error m => simp
    | ok rec =>
      have h3 : invHash rec = lastHash := hrec rec h2
      simp only [h3, if_pos rfl]
      simp

/-! ## Claim theorems -/

/-- C7: within every single dispatcher tick, `UpdateAgentStatus` is called at
most once and `UpdateSourceStatus` is called at most once, and every
`UpdateSourceStatus` call is preceded in the same tick by a successful
`UpdateAgentStatus` call. -/
theorem c7_tick_call_discipline (decodeOk : List Nat → Bool) (legacy : Bool)
    (env : TickEnv) (lastHash : String) :
    ((runWorkUnit decodeOk legacy env lastHash).2.2.countP (Call.isAgent ·) ≤ 1) ∧
    ((runWorkUnit decodeOk legacy env lastHash).2.2.countP (Call.isSource ·) ≤ 1) ∧
    (∀ pre b o post,
      (runWorkUnit decodeOk legacy env lastHash).2.2 = pre ++ Call.source b o :: post →
      ∃ c ∈ pre, Call.isAgentSuccess c = true) := by
  obtain ⟨e, h⟩ | h | ⟨b', o', h⟩ := runWorkUnit_shape decodeOk legacy env lastHash <;>
    rw [h] <;>
    refine ⟨by simp [List.countP, List.countP.go, Call.isAgent, Call.isSource],
      by simp [List.countP, List.countP.go, Call.isAgent, Call.isSource], ?_⟩
  · intro pre b o post hpre
    rcases pre with _ | ⟨a, pre'⟩ <;> simp_all
  · intro pre b o post hpre
    rcases pre with _ | ⟨a, pre'⟩ <;> simp_all
  · intro pre b o post hpre
    rcases pre with _ | ⟨a, pre'⟩
    · simp_all
    · rcases pre' with _ | ⟨a2, pre''⟩
      · refine ⟨a, by simp, ?_⟩
        have ha : Call.agent (agentStatusValue legacy env.collectorState) none = a := by
          simpa using congrArg (fun l => l.head?) hpre
        rw [← ha]; rfl
      · have := congrArg List.length hpre
        simp [List.length_append] at this

/-- C2: after a dispatcher tick whose result is a SourceGone or
AgentUnauthorized error, the run loop exits permanently: for every
continuation of the event stream, the loop's whole call trace is exactly that
tick's calls (no later `UpdateAgentStatus` or `UpdateSourceStatus` ever), and
the loop reports a fatal exit. -/
theorem c2_fatal_terminates (decodeOk : List Nat → Bool) (legacy : Bool)
    (backoffs : Nat → Nat) (st : RunState) (now : Nat) (env : TickEnv)
    (rest : List LoopEvent) (e : CErr)
    (hgate : st.nextAllowed < now)
    (hres : (runWorkUnit decodeOk legacy env st.lastHash).1 = .err e)
    (hfatal : e.isFatal = true) :
    (runLoop decodeOk legacy backoffs st (.tick now env :: rest)).1
      = (runWorkUnit decodeOk legacy env st.lastHash).2.2 ∧
    (runLoop decodeOk legacy backoffs st (.tick now env :: rest)).2.1 = .fatal := by
  have hng : ¬ now ≤ st.nextAllowed := Nat.not_le.mpr hgate
  rcases hr : runWorkUnit decodeOk legacy env st.lastHash with ⟨res, h', calls⟩
  rw [hr] at hres
  simp only at hres
  subst hres
  simp [runLoop, hng, hr, hfatal]

/-- C9 (spec-modelled store): for every mode X in \x7bConnected,
Disconnected\x7d and after every prior sequence of `Configuration.Save` calls,
`Save(mode=X)` followed by `Get` returns mode X. -/
theorem c9_config_save_get_roundtrip (saves : List String) (row0 : Option String)
    (x : String) (_hx : x = "connected" ∨ x = "disconnected") :
    configGet (configSave (saves.foldl configSave row0) x) = .ok x := rfl

/-- Witness for C9 at a concrete re-save sequence. -/
theorem c9_config_save_get_roundtrip_witness :
    configGet (configSave (["disconnected", "connected"].foldl configSave none)
      "connected") = .ok "connected" :=
  c9_config_save_get_roundtrip ["disconnected", "connected"] none "connected"
    (Or.inl rfl)

/-- C8: a work function that panics delivers exactly one result whose error
message contains "worker panicked" and the panic value, the worker still
signals completion, and after the completion event the scheduler dispatches a
further submission. -/
theorem c8_worker_panic_guard (p : String) (id2 : Nat) (n : Nat) :
    ((workerRun (.panicked p)).2 = true) ∧
    (∃ msg, (workerRun (.panicked p)).1.err = some msg ∧
      (∃ pre post, msg = pre ++ "worker panicked" ++ post) ∧
      (∃ pre post, msg = pre ++ p ++ post)) ∧
    ((schedStep ((schedStep ⟨n, []⟩ .workerDone).1) (.submit id2)).2.1 = [id2]) := by
  refine ⟨rfl, ⟨"worker panicked: " ++ p, rfl, ⟨"", ": " ++ p, ?_⟩,
    ⟨"worker panicked: ", "", ?_⟩⟩, ?_⟩
  · have hlit : ("worker panicked" ++ ": " : String) = "worker panicked: " := rfl
    rw [String.empty_append, ← String.append_assoc, hlit]
  · rw [String.append_empty]
  · show (schedStep ((schedStep ⟨n, []⟩ .workerDone).1) (.submit id2)).2.1 = [id2]
    have h1 : dispatchDrain (n + 1) [] = (n + 1, [], []) := by
      cases n <;> rfl
    have h2 : dispatchDrain (n + 1) [id2] = (n, [], [id2]) := by
      show dispatchDrain (Nat.succ n) [id2] = (n, [], [id2])
      cases n <;> rfl
    simp [schedStep, schedDispatch, h1, h2]

set_option maxRecDepth 400000 in
/-- C3 counterexample: a tick whose `UpdateSourceStatus` fails with HTTP 500
nevertheless leaves `inventoryLastHash` changed — `getInventoryIfChanged`
assigned it before the send, so the claim "keeps the value it had at the
start of the tick" is false at this input. -/
theorem c3_counterexample :
    (runWorkUnit (fun _ => true) false
        ⟨.collected, .code 200, .ok ⟨[65], "t1", "t1"⟩, .code 500⟩ "").1
      = .err (.transientHttp 500) ∧
    (runWorkUnit (fun _ => true) false
        ⟨.collected, .code 200, .ok ⟨[65], "t1", "t1"⟩, .code 500⟩ "").2.1
      = "e7c2a80e343531cb540711f885aa63c1e7e3e01133e36fb233424e1ef044d094" := by
  constructor
  · rfl
  · rfl

/-- C3 corrected: `inventoryLastHash` is updated to the hash of the marshaled
record at the moment `getInventoryIfChanged` observes a changed hash — before
`UpdateSourceStatus` is attempted and regardless of its outcome; it keeps its
prior value exactly when the agent-status call fails, the store read fails, or
the hash is unchanged. -/
theorem c3_amended_hash_update (decodeOk : List Nat → Bool) (legacy : Bool)
    (env : TickEnv) (lastHash : String) :
    (runWorkUnit decodeOk legacy env lastHash).2.1 =
      (match updateAgentStatus env.agentResp, env.invGet with
       | none, .ok rec => if invHash rec = lastHash then lastHash else invHash rec
       | _, _ => lastHash) := by
  unfold runWorkUnit
  cases h1 : updateAgentStatus env.agentResp with
  | some e => rfl
  | none =>
    cases h2 : env.invGet with
    | error m => rfl
    | ok rec =>
      by_cases h3 : invHash rec = lastHash
      · simp [h3]
      · simp only [if_neg h3]
        rcases h4 : updateSourceStatus decodeOk rec.data env.sourceResp with ⟨issued, out⟩
        cases out <;> simp

set_option maxRecDepth 400000 in
/-- C4 counterexample: tick 1 transmits the record `([65],"t1","t1")` and
succeeds; the store row is then re-saved with a byte-identical blob but a new
`updated_at` (`([65],"t1","t2")`). The claim says no `UpdateSourceStatus`
happens on tick 2, but the hash covers the whole marshaled record, so the
code issues a second source call. -/
theorem c4_counterexample :
    ((runWorkUnit (fun _ => true) false
        ⟨.collected, .code 200, .ok ⟨[65], "t1", "t1"⟩, .code 200⟩ "").1 = .ok) ∧
    ((⟨[65], "t1", "t2"⟩ : InvRecord).data = (⟨[65], "t1", "t1"⟩ : InvRecord).data) ∧
    ((runWorkUnit (fun _ => true) false
        ⟨.collected, .code 200, .ok ⟨[65], "t1", "t2"⟩, .code 200⟩
        (runWorkUnit (fun _ => true) false
          ⟨.collected, .code 200, .ok ⟨[65], "t1", "t1"⟩, .code 200⟩ "").2.1).2.2
      = [.agent "collected" none, .source true none]) := by
  refine ⟨rfl, rfl, ?_⟩
  rfl

/-- C4 corrected: the dedup hash is the SHA-256 of the JSON-marshaled
inventory record (base64 blob plus both timestamps), and when that hash
equals `inventoryLastHash` the tick makes no `UpdateSourceStatus` call and
returns the inventory-unchanged sentinel. -/
theorem c4_amended_dedup (decodeOk : List Nat → Bool) (legacy : Bool)
    (env : TickEnv) (lastHash : String) (rec : InvRecord)
    (hrec : env.invGet = .ok rec)
    (hagent : updateAgentStatus env.agentResp = none)
    (hhash : hexSha256 (jsonMarshalInventory rec) = lastHash) :
    (runWorkUnit decodeOk legacy env lastHash).1 = .sentinel ∧
    (runWorkUnit decodeOk legacy env lastHash).2.1 = lastHash ∧
    ∀ b o, Call.source b o ∉ (runWorkUnit decodeOk legacy env lastHash).2.2 := by
  have hh : invHash rec = lastHash := hhash
  unfold runWorkUnit
  simp [hagent, hrec, hh]

set_option maxRecDepth 400000 in
/-- Witness for C4's corrected statement at the concrete record
`([65],"t1","t1")` whose hash is spelled out. -/
theorem c4_amended_dedup_witness :
    (hexSha256 (jsonMarshalInventory ⟨[65], "t1", "t1"⟩)
      = "e7c2a80e343531cb540711f885aa63c1e7e3e01133e36fb233424e1ef044d094") ∧
    (runWorkUnit (fun _ => true) false
      ⟨.collected, .code 200, .ok ⟨[65], "t1", "t1"⟩, .code 200⟩
      "e7c2a80e343531cb540711f885aa63c1e7e3e01133e36fb233424e1ef044d094").1
      = .sentinel :=
  ⟨rfl,
   (c4_amended_dedup (fun _ => true) false
     ⟨.collected, .code 200, .ok ⟨[65], "t1", "t1"⟩, .code 200⟩
     "e7c2a80e343531cb540711f885aa63c1e7e3e01133e36fb233424e1ef044d094"
     ⟨[65], "t1", "t1"⟩ rfl rfl rfl).1⟩

/-- C1 at its failing input: startup in connected mode with an empty
configuration table spawns the run loop; the loop exits on a fatal error
(HTTP 410); a subsequent `SetMode(Connected)` returns nil — the model's
`SetModeOutcome` mirrors the code, which has no ModeConflict path at all —
and spawns a fresh run loop instead of refusing. -/
theorem c1_no_mode_conflict_after_fatal :
    (startup "connected" none).loops = 1 ∧
    (fatalExit (startup "connected" none)).loops = 0 ∧
    (setMode (fatalExit (startup "connected" none)) "connected" true).2
      = .ok ∧
    (setMode (fatalExit (startup "connected" none)) "connected" true).1.loops
      = 1 := by
  refine ⟨rfl, rfl, rfl, rfl⟩

/-- C5 at its failing input: with a persisted `agent_mode='disconnected'` row
and a configured default mode "connected", `NewConsoleService` resolves the
target to Connected and spawns the dispatcher — the persisted row does not
win unless it is Connected. -/
theorem c5_persisted_disconnected_overridden :
    (startup "connected" (some "disconnected")).target = "connected" ∧
    (startup "connected" (some "disconnected")).loops = 1 := by
  refine ⟨rfl, rfl⟩

/-- C6 counterexample: starting connected with no persisted row (one loop
alive), a `SetMode(Connected)` whose previous-mode read fails (empty table →
`GetMode` error → previous mode defaults to Disconnected) spawns a second
run loop. -/
theorem c6_counterexample :
    (startup "connected" none).loops = 1 ∧
    (setMode (startup "connected" none) "connected" true).1.loops = 2 := by
  refine ⟨rfl, rfl⟩

/-- The loop-count/row consistency invariant preserved by `SetMode`. -/
def ctlInv (s : CtlState) : Prop :=
  s.loops = (if s.row = some "connected" then 1 else 0)

/-- `SetMode` with a successful save and a mode in the two-value vocabulary
preserves the loop-count/row consistency invariant. -/
theorem setMode_preserves_ctlInv (s : CtlState) (m : String)
    (hm : m = "connected" ∨ m = "disconnected") (hinv : ctlInv s) :
    ctlInv (setMode s m true).1 := by
  rcases s with ⟨row, loops, target⟩
  unfold ctlInv at *
  simp only at hinv
  rcases hm with rfl | rfl
  · by_cases hrow : row = some "connected"
    · simp [setMode, getModeValue, configGet, configSave, hrow, ctlInv, hinv]
    · rcases row with _ | r
      · simp_all [setMode, getModeValue, configGet, configSave]
      · have hr : r ≠ "connected" := by
          intro h; exact hrow (by rw [h])
        simp_all [setMode, getModeValue, configGet, configSave]
  · by_cases hrow : row = some "connected"
    · simp_all [setMode, getModeValue, configGet, configSave]
    · rcases row with _ | r
      · simp_all [setMode, getModeValue, configGet, configSave]
      · have hr : r ≠ "connected" := by
          intro h; exact hrow (by rw [h])
        simp_all [setMode, getModeValue, configGet, configSave]

/-- C6 corrected: from any state whose loop count matches the persisted row
(one loop alive iff the row is Connected), every sequence of `SetMode` calls
over \x7bConnected, Disconnected\x7d with successful saves and no fatal loop
exits keeps at most one run loop alive. (The unrestricted claim fails: a
`SetMode(Connected)` whose previous-mode read fails while a loop is running
spawns a second loop.) -/
theorem c6_amended_single_loop (ms : List String) (s : CtlState)
    (hms : ∀ m ∈ ms, m = "connected" ∨ m = "disconnected")
    (hinv : ctlInv s) :
    (ms.foldl (fun t m => (setMode t m true).1) s).loops ≤ 1 := by
  have key : ∀ (l : List String) (t : CtlState),
      (∀ m ∈ l, m = "connected" ∨ m = "disconnected") → ctlInv t →
      ctlInv (l.foldl (fun t m => (setMode t m true).1) t) := by
    intro l
    induction l with
    | nil => intro t _ ht; exact ht
    | cons m rest ih =>
      intro t hall ht
      exact ih _ (fun x hx => hall x (by simp [hx]))
        (setMode_preserves_ctlInv t m (hall m (by simp)) ht)
  have hfin := key ms s hms hinv
  unfold ctlInv at hfin
  rw [hfin]
  split <;> omega

/-- Witness for C6's corrected statement on a concrete transition sequence. -/
theorem c6_amended_single_loop_witness :
    ((["connected", "disconnected", "connected"].foldl
        (fun t m => (setMode t m true).1)
        (startup "connected" (some "connected"))).loops ≤ 1) :=
  c6_amended_single_loop ["connected", "disconnected", "connected"]
    (startup "connected" (some "connected"))
    (by intro m hm; simp at hm; rcases hm with rfl | rfl | rfl <;> simp)
    (by unfold ctlInv startup; rfl)

/-- Witness for C2 at a concrete fatal tick (the agent-status PUT answers
HTTP 410). -/
theorem c2_fatal_terminates_witness :
    ((⟨"", none, 0, 0⟩ : RunState).nextAllowed < 1) ∧
    ((runLoop (fun _ => true) false (fun _ => 0) ⟨"", none, 0, 0⟩
        [.tick 1 ⟨.ready, .code 410, .error "no row", .code 200⟩]).2.1 = .fatal) :=
  ⟨by decide,
   (c2_fatal_terminates (fun _ => true) false (fun _ => 0) ⟨"", none, 0, 0⟩ 1
      ⟨.ready, .code 410, .error "no row", .code 200⟩ [] .sourceGone
      (by decide) rfl rfl).2⟩

/-- A loop event that presents no inventory hashing differently from `h`:
a close signal, or a tick whose store read fails or yields a record whose
marshaled-record hash is `h` (i.e. the stored record is unchanged). -/
def noNewInventory (h : String) : LoopEvent → Prop
  | .closeSignal => True
  | .tick _ env => ∀ rec, env.invGet = .ok rec → invHash rec = h

/-- The `backoff:` block never touches `inventoryLastHash`. -/
theorem backoffStep_lastHash (backoffs : Nat → Nat) (now : Nat) (st : RunState) :
    (backoffStep backoffs now st).lastHash = st.lastHash := by
  unfold backoffStep
  cases st.errField <;> rfl

/-- While every event's record (when readable) hashes to the current
`inventoryLastHash`, the run loop never invokes `UpdateSourceStatus`. -/
theorem runLoop_no_source_of_unchanged (decodeOk : List Nat → Bool) (legacy : Bool)
    (backoffs : Nat → Nat) (evs : List LoopEvent) :
    ∀ st : RunState, (∀ ev ∈ evs, noNewInventory st.lastHash ev) →
      ∀ b o, Call.source b o ∉ (runLoop decodeOk legacy backoffs st evs).1 := by
  induction evs with
  | nil =>
    intro st _ b o
    simp [runLoop]
  | cons ev rest ih =>
    intro st hall b o
    cases ev with
    | closeSignal => simp [runLoop]
    | tick now env =>
      have hthis : noNewInventory st.lastHash (.tick now env) :=
        hall _ (by simp)
      have hrest : ∀ e ∈ rest, noNewInventory st.lastHash e :=
        fun e he => hall e (by simp [he])
      by_cases hg : now ≤ st.nextAllowed
      · simpa [runLoop, hg] using ih st hrest b o
      · obtain ⟨hhash, hnosrc⟩ := runWorkUnit_unchanged decodeOk legacy env st.lastHash hthis
        rcases hr : runWorkUnit decodeOk legacy env st.lastHash with ⟨res, h', calls⟩
        rw [hr] at hhash hnosrc
        simp only at hhash hnosrc
        subst hhash
        cases res with
        | sentinel =>
          simp only [runLoop, hg, if_neg hg, hr]
          intro hc
          rcases List.mem_append.mp hc with hc | hc
          · exact hnosrc b o hc
          · refine ih (backoffStep backoffs now { st with lastHash := st.lastHash })
              ?_ b o hc
            intro e he
            rw [backoffStep_lastHash]
            exact hrest e he
        | ok =>
          simp only [runLoop, hg, if_neg hg, hr]
          intro hc
          rcases List.mem_append.mp hc with hc | hc
          · exact hnosrc b o hc
          · refine ih (backoffStep backoffs now
              { st with lastHash := st.lastHash, errField := none }) ?_ b o hc
            intro e he
            rw [backoffStep_lastHash]
            exact hrest e he
        | err e =>
          by_cases hf : e.isFatal
          · simp only [runLoop, hg, if_neg hg, hr, hf, if_pos hf]
            exact hnosrc b o
          · simp only [runLoop, hg, if_neg hg, hr, hf, if_neg hf]
            intro hc
            rcases List.mem_append.mp hc with hc | hc
            · exact hnosrc b o hc
            · refine ih (backoffStep backoffs now
                { st with lastHash := st.lastHash, errField := some e }) ?_ b o hc
              intro ev' he
              rw [backoffStep_lastHash]
              exact hrest ev' he

/-- C10: when the stored blob does not unmarshal into the console inventory
DTO (and its record hash differs from `inventoryLastHash`), the tick's work
unit returns a non-fatal error with no source-status HTTP request issued; the
hash was nevertheless recorded; the run loop stores the error, schedules the
backoff window `now + NextBackOff()`, and continues with the remaining
events; and as long as the stored record is unchanged (every readable record
hashes to the recorded hash) no `UpdateSourceStatus` invocation ever
happens. -/
theorem c10_invalid_inventory_json (legacy : Bool) (backoffs : Nat → Nat)
    (decodeOk : List Nat → Bool) (env : TickEnv) (rec : InvRecord)
    (st : RunState) (now : Nat) (rest : List LoopEvent)
    (hgate : st.nextAllowed < now)
    (hagent : updateAgentStatus env.agentResp = none)
    (hrec : env.invGet = .ok rec)
    (hdec : decodeOk rec.data = false)
    (hchanged : invHash rec ≠ st.lastHash) :
    (runWorkUnit decodeOk legacy env st.lastHash).1 = .err .unmarshalErr ∧
    CErr.isFatal .unmarshalErr = false ∧
    (∀ o, Call.source true o ∉ (runWorkUnit decodeOk legacy env st.lastHash).2.2) ∧
    (runWorkUnit decodeOk legacy env st.lastHash).2.1 = invHash rec ∧
    (runLoop decodeOk legacy backoffs st (.tick now env :: rest)).1
      = (runWorkUnit decodeOk legacy env st.lastHash).2.2
        ++ (runLoop decodeOk legacy backoffs
             (backoffStep backoffs now
               { st with lastHash := invHash rec, errField := some .unmarshalErr })
             rest).1 ∧
    (runLoop decodeOk legacy backoffs st (.tick now env :: rest)).2
      = (runLoop decodeOk legacy backoffs
          (backoffStep backoffs now
            { st with lastHash := invHash rec, errField := some .unmarshalErr })
          rest).2 ∧
    (backoffStep backoffs now
        { st with lastHash := invHash rec, errField := some .unmarshalErr }).nextAllowed
      = now + backoffs st.bCount ∧
    (∀ evs : List LoopEvent, (∀ ev ∈ evs, noNewInventory (invHash rec) ev) →
      ∀ b o, Call.source b o ∉
        (runLoop decodeOk legacy backoffs
          (backoffStep backoffs now
            { st with lastHash := invHash rec, errField := some .unmarshalErr })
          evs).1) := by
  have hng : ¬ now ≤ st.nextAllowed := Nat.not_le.mpr hgate
  have hwu : runWorkUnit decodeOk legacy env st.lastHash
      = (.err .unmarshalErr, invHash rec,
         [.agent (agentStatusValue legacy env.collectorState) none,
          .source false (some .unmarshalErr)]) := by
    unfold runWorkUnit
    rw [hagent, hrec]
    simp [if_neg hchanged, updateSourceStatus, hdec]
  refine ⟨by rw [hwu], rfl, ?_, by rw [hwu], ?_, ?_, ?_, ?_⟩
  · intro o
    rw [hwu]
    simp
  · simp [runLoop, if_neg hng, hwu, CErr.isFatal]
  · simp [runLoop, if_neg hng, hwu, CErr.isFatal]
  · unfold backoffStep
    rfl
  · intro evs hall b o
    refine runLoop_no_source_of_unchanged decodeOk legacy backoffs evs _ ?_ b o
    simpa [backoffStep_lastHash] using hall

set_option maxRecDepth 400000 in
/-- Witness for C10 at a blob that fails DTO decoding, with the record
`([65],"t1","t1")` and an empty starting hash. -/
theorem c10_invalid_inventory_json_witness :
    (invHash ⟨[65], "t1", "t1"⟩ ≠ "") ∧
    (runWorkUnit (fun _ => false) false
        ⟨.collected, .code 200, .ok ⟨[65], "t1", "t1"⟩, .code 200⟩ "").1
      = .err .unmarshalErr :=
  ⟨by decide,
   (c10_invalid_inventory_json false (fun _ => 7) (fun _ => false)
      ⟨.collected, .code 200, .ok ⟨[65], "t1", "t1"⟩, .code 200⟩
      ⟨[65], "t1", "t1"⟩ ⟨"", none, 0, 0⟩ 1 []
      (by decide) rfl rfl rfl (by decide)).1⟩

end AgentCore
